import Mathlib

/-!
Verification development for the Social-Media-Analyzer repository.

The repository has two independent cores, both shallowly embedded here:

1. The dashboard CSV pipeline (Dashboard component): loading a CSV resource,
   parsing it into rows of dynamically typed cells, and four pure derived
   views over the row list (getStats, getPostTypeStats, getEngagementData,
   getAverageEngagement).

2. The Langflow chat client (App component): the POST helper of
   LangflowClient, the response-shape extraction inside handleSubmit, and the
   user-visible state transition handleSubmit performs.

JavaScript machine numbers are modelled as unbounded integers: every numeric
value the claims exercise is an integer well inside the exactly-representable
float range, so float rounding never changes a result.  String primitives are
processed through List Char so that all definitions reduce inside the kernel.
-/

namespace SMA

/-! ### Character-list string helpers (kernel-computable replacements for
String.splitOn, String.trim and String.toInt?) -/

/-- Split a character list at every occurrence of the separator.  Mirrors the
behaviour of the JavaScript String.prototype.split with a single-character
separator: a trailing separator yields a trailing empty field. -/
def splitChars (sep : Char) : List Char → List (List Char)
  | [] => [[]]
  | c :: rest =>
    let r := splitChars sep rest
    if c = sep then [] :: r
    else
      match r with
      | [] => [[c]]
      | f :: fs => (c :: f) :: fs

/-- Rebuild a String from a character list. -/
def strOfChars (l : List Char) : String := String.mk l

/-- Decimal digit test. -/
def isDigitChar (c : Char) : Bool := 48 ≤ c.toNat && c.toNat ≤ 57

/-- Value of a decimal digit character. -/
def digitVal (c : Char) : Nat := c.toNat - 48

/-- Natural number denoted by a list of decimal digit characters. -/
def natOfDigits : List Char → Nat
  | [] => 0
  | c :: rest => natOfDigits rest + digitVal c * 10 ^ rest.length

/-- Integer denoted by an optional minus sign followed by decimal digits;
none when the character list is not such a literal. -/
def intOfChars (l : List Char) : Option Int :=
  match l with
  | [] => none
  | '-' :: rest =>
    if rest ≠ [] ∧ rest.all isDigitChar then some (-(natOfDigits rest : Int)) else none
  | _ => if l.all isDigitChar then some (natOfDigits l : Int) else none

/-- Drop whitespace from both ends of a character list. -/
def trimChars (l : List Char) : List Char :=
  ((l.dropWhile Char.isWhitespace).reverse.dropWhile Char.isWhitespace).reverse

/-- True when the string is empty or consists only of whitespace; this is
exactly the condition under which the JavaScript test
(not inputValue.trim()) holds. -/
def isBlank (s : String) : Bool := s.data.all Char.isWhitespace

/-! ### Scalar cell values

A parsed CSV cell, or more generally any scalar a dashboard row field can
hold.  PapaParse with dynamicTyping produces strings, integers (we restrict
the float grammar to integer literals, the only numbers the claims involve),
booleans, and null for an empty field; an absent object property reads as
undefined, represented by cundefined.  No reachable cell is NaN, because the
PapaParse numeric conversion only fires on parseable numeric literals. -/

inductive Cell where
  | cnull
  | cundefined
  | cbool (b : Bool)
  | cnum (i : Int)
  | cstr (s : String)
deriving DecidableEq, Repr

/-- A dashboard row: the object PapaParse produces under header mode, a
field-name-to-cell mapping with the header order preserved. -/
abbrev Row : Type := List (String × Cell)

/-- Property access row[k]: the first binding of the key, or undefined when
the key is absent. -/
def getF (r : Row) (k : String) : Cell :=
  match r.find? (fun p => p.1 == k) with
  | some p => p.2
  | none => .cundefined

/-- JavaScript String() coercion of a cell; also the coercion applied to a
value used as an object key, as in postTypeCounts[row.Post_Type]. -/
def cellToString : Cell → String
  | .cnull => "null"
  | .cundefined => "undefined"
  | .cbool true => "true"
  | .cbool false => "false"
  | .cnum i => toString i
  | .cstr s => s

/-- JavaScript truthiness of a cell. -/
def ctruthy : Cell → Bool
  | .cnull => false
  | .cundefined => false
  | .cbool b => b
  | .cnum i => i != 0
  | .cstr s => s != ""

/-- The expression (cell || 0) used by getStats to default a field. -/
def jsOr0 (c : Cell) : Cell := if ctruthy c then c else .cnum 0

/-! ### JavaScript addition over an accumulator

The reduce calls in Dashboard.js start from the number 0 and add raw cell
values.  The running value is an integer until an undefined operand turns it
into NaN or a string operand turns the whole accumulation into string
concatenation; both possibilities are represented explicitly. -/

inductive JsAcc where
  | int (i : Int)
  | nan
  | str (s : String)
deriving DecidableEq, Repr

/-- String coercion of an accumulator value, as used by the concatenation
case of JavaScript addition. -/
def accToString : JsAcc → String
  | .int i => toString i
  | .nan => "NaN"
  | .str s => s

/-- JavaScript binary + of an accumulator value and a cell: if either side is
a string the result is string concatenation; otherwise null coerces to 0,
booleans to 0 or 1, and undefined poisons the sum to NaN. -/
def jsPlus (a : JsAcc) (c : Cell) : JsAcc :=
  match a, c with
  | .str s, c => .str (s ++ cellToString c)
  | a, .cstr s => .str (accToString a ++ s)
  | .nan, _ => .nan
  | .int x, .cnum i => .int (x + i)
  | .int x, .cnull => .int x
  | .int x, .cbool b => .int (x + (if b then 1 else 0))
  | .int _, .cundefined => .nan

/-- JavaScript ToNumber of an accumulator value, as applied by the division
inside getAverageEngagement: integers pass through, NaN stays unusable, and a
string is trimmed and read as a numeric literal (empty means 0).  The string
grammar is restricted to the integer literals the data can contain. -/
def jsToNumber : JsAcc → Option Int
  | .int i => some i
  | .nan => none
  | .str s =>
    let t := trimChars s.data
    if t = [] then some 0 else intOfChars t

/-- Math.round(s / n) for an integer sum s and a group size n, computed
exactly: JavaScript rounds half toward positive infinity, so the result is
the floor of s / n + 1 / 2, which for positive n equals the floor division
below.  The rational characterisation is proved in the C4 theorem. -/
def jsMathRound (s : Int) (n : Nat) : Int := (2 * s + n) / (2 * (n : Int))

/-- The full rounded average: ToNumber on the accumulated sum, then division
by the group size and Math.round.  A zero group size would give NaN or an
infinity in JavaScript; it is proved unreachable in the C6 theorem. -/
def jsRoundDiv (a : JsAcc) (n : Nat) : JsAcc :=
  match jsToNumber a with
  | none => .nan
  | some s => if n = 0 then .nan else .int (jsMathRound s n)

/-- First-occurrence deduplication, the semantics of spreading a JavaScript
Set built from a list back into an array. -/
def jsSetDedup {α : Type} [DecidableEq α] (l : List α) : List α :=
  l.foldl (fun acc a => if a ∈ acc then acc else acc ++ [a]) []

/-! ### The four derived views of Dashboard.js -/

/-- Result shape of getStats. -/
structure StatsSummary where
  totalPosts : Nat
  uniqueTypes : Nat
  totalViews : JsAcc
  totalLikes : JsAcc
deriving DecidableEq, Repr

/-- getStats of Dashboard.js: row count, the size of the Set of Post_Type
values, and the Views and Likes totals with the (x || 0) default. -/
def getStats (rows : List Row) : StatsSummary :=
  { totalPosts := rows.length
    uniqueTypes := (jsSetDedup (rows.map (fun r => getF r "Post_Type"))).length
    totalViews := rows.foldl (fun a r => jsPlus a (jsOr0 (getF r "Views"))) (.int 0)
    totalLikes := rows.foldl (fun a r => jsPlus a (jsOr0 (getF r "Likes"))) (.int 0) }

/-- One pie-chart entry of getPostTypeStats: the object key (a string, after
the JavaScript key coercion) and its count. -/
structure PTEntry where
  name : String
  value : Nat
deriving DecidableEq, Repr

/-- The string key a row contributes to the postTypeCounts object: its
Post_Type value coerced to a string by the JavaScript object-key rule. -/
def keyOf (r : Row) : String := cellToString (getF r "Post_Type")

/-- The statement postTypeCounts[k] = (postTypeCounts[k] || 0) + 1 on an
insertion-ordered string-keyed map, modelled as an association list: the
first matching binding is incremented, a fresh key is appended.  JavaScript
additionally fronts integer-like keys in enumeration order; no claim observes
the order of the emitted entries, so insertion order is used throughout. -/
def bump (m : List (String × Nat)) (k : String) : List (String × Nat) :=
  match m with
  | [] => [(k, 1)]
  | (k0, c) :: rest => if k0 = k then (k0, c + 1) :: rest else (k0, c) :: bump rest k

/-- The postTypeCounts object of getPostTypeStats after the forEach loop. -/
def postTypeCounts (rows : List Row) : List (String × Nat) :=
  rows.foldl (fun m r => bump m (keyOf r)) []

/-- getPostTypeStats of Dashboard.js: Object.entries of the count map,
rendered as name/value chart entries. -/
def getPostTypeStats (rows : List Row) : List PTEntry :=
  (postTypeCounts rows).map (fun p => { name := p.1, value := p.2 })

/-- One line-chart point of getEngagementData. -/
structure EngPoint where
  date : String
  likes : Cell
  shares : Cell
  comments : Cell
  views : Cell
deriving DecidableEq, Repr

/-- getEngagementData of Dashboard.js.  The date cell goes through
new Date(x).toLocaleDateString(), a locale- and environment-dependent
formatter, taken here as the parameter fmt; the other four fields are the raw
cells. -/
def getEngagementData (fmt : Cell → String) (rows : List Row) : List EngPoint :=
  rows.map (fun r =>
    { date := fmt (getF r "Date")
      likes := getF r "Likes"
      shares := getF r "Shares"
      comments := getF r "Comments"
      views := getF r "Views" })

/-- One bar-chart entry of getAverageEngagement: the category value and the
two rounded averages. -/
structure AvgEntry where
  name : Cell
  likes : JsAcc
  shares : JsAcc
deriving DecidableEq, Repr

/-- The local posts list of getAverageEngagement: the rows whose Post_Type
is strictly equal to the given value. -/
def postsOf (rows : List Row) (t : Cell) : List Row :=
  rows.filter (fun r => getF r "Post_Type" == t)

/-- getAverageEngagement of Dashboard.js: one entry per distinct Post_Type
value (Set semantics, first-occurrence order), each carrying
Math.round of the plain reduce sums of Likes and Shares over the group,
divided by the group size.  The reduce has no default for a missing field:
an undefined cell drives the sum, hence the average, to NaN. -/
def getAverageEngagement (rows : List Row) : List AvgEntry :=
  (jsSetDedup (rows.map (fun r => getF r "Post_Type"))).map (fun t =>
    let posts := postsOf rows t
    { name := t
      likes := jsRoundDiv (posts.foldl (fun a p => jsPlus a (getF p "Likes")) (.int 0)) posts.length
      shares := jsRoundDiv (posts.foldl (fun a p => jsPlus a (getF p "Shares")) (.int 0)) posts.length })

/-! ### CSV loading (loadData of Dashboard.js) -/

/-- Modelled from the spec: the PapaParse dynamicTyping conversion of one raw
field, for the value grammar the dataset exercises.  The words true and false
become booleans, integer literals become numbers, the empty field becomes
null, and everything else stays a string.  The library also converts float
and ISO-date literals, which no claim exercises. -/
def dynType (f : List Char) : Cell :=
  if f = "true".data then .cbool true
  else if f = "false".data then .cbool false
  else
    match intOfChars f with
    | some i => .cnum i
    | none => if f = [] then .cnull else .cstr (strOfChars f)

/-- Outcome of a PapaParse run: the data rows and the reported errors. -/
structure ParseOutput where
  data : List Row
  errors : List String
deriving DecidableEq, Repr

/-- Modelled from the spec: PapaParse on a comma-separated text with
header: true, dynamicTyping: true and skipEmptyLines: true, which is code of
the papaparse dependency, not of this repository.  The first line is the
header; fully empty data lines are skipped before any further processing; a
kept line whose field count differs from the header count is reported as a
FieldMismatch error; each kept line becomes a row pairing the header names
with the dynamically typed fields (a short line simply lacks the trailing
keys, which then read as undefined).  Quoted fields and carriage returns are
not exercised by any claim and are not modelled. -/
def papaParse (csv : String) : ParseOutput :=
  match splitChars '\n' csv.data with
  | [] => { data := [], errors := [] }
  | hl :: rest =>
    let header := (splitChars ',' hl).map strOfChars
    let lines := rest.filter (fun l => l ≠ [])
    let fieldss := lines.map (splitChars ',')
    let errors := (fieldss.filter (fun f => f.length ≠ header.length)).map
      (fun _ => "FieldMismatch")
    let data : List Row := fieldss.map (fun f => header.zip (f.map dynType))
    { data := data, errors := errors }

/-- The three user-visible failure states of loadData. -/
inductive LoadErr where
  | loadError
  | parseError
  | emptyDataError
deriving DecidableEq, Repr

/-- loadData of Dashboard.js.  The input models the fetch of the CSV
resource: none when the fetch itself fails (resource unreachable), otherwise
the response ok flag and body text.  A failed fetch and a non-ok status both
land in the same catch and surface the loading-error state; parse errors
reported by PapaParse surface the parsing-error state; rows that keep no
key survive the Object.keys filter, and zero surviving rows surface the
no-valid-data state. -/
def loadData (fetched : Option (Bool × String)) : Except LoadErr (List Row) :=
  match fetched with
  | none => .error .loadError
  | some (ok, text) =>
    if !ok then .error .loadError
    else
      let res := papaParse text
      if 0 < res.errors.length then .error .parseError
      else
        let validData := res.data.filter (fun r => 0 < r.length)
        if validData.length = 0 then .error .emptyDataError
        else .ok validData

/-! ### JSON values and the Langflow client (App.js) -/

/-- A weakly typed JavaScript value as it occurs in a flow response: the
JSON constructors plus undefined, the value produced by reading an absent
property. -/
inductive Json where
  | null
  | undefined
  | bool (b : Bool)
  | num (i : Int)
  | str (s : String)
  | arr (elems : List Json)
  | obj (fields : List (String × Json))

/-- Property access j[k] (equivalently j.k): the field of an object, or
undefined on everything else.  Real JavaScript throws on a null or undefined
base, but every access performed by the embedded code is guarded by a
truthiness test on the base, so the guarded branch is never reached there. -/
def jget (j : Json) (k : String) : Json :=
  match j with
  | .obj fields =>
    match fields.find? (fun p => p.1 == k) with
    | some p => p.2
    | none => .undefined
  | _ => .undefined

/-- Index access j[i]: array element, object property with the numeric key
coerced to a string, character of a string, undefined otherwise. -/
def jindex (j : Json) (i : Nat) : Json :=
  match j with
  | .arr elems =>
    match elems.get? i with
    | some v => v
    | none => .undefined
  | .obj _ => jget j (toString i)
  | .str s =>
    match s.data.get? i with
    | some c => .str (String.mk [c])
    | none => .undefined
  | _ => .undefined

/-- JavaScript truthiness of a Json value. -/
def jtruthy : Json → Bool
  | .null => false
  | .undefined => false
  | .bool b => b
  | .num i => i != 0
  | .str s => s != ""
  | .arr _ => true
  | .obj _ => true

/-- The error taxonomy of the POST helper, named as in the spec:
protocolError is the invalid-JSON-response failure thrown before the status
check, remoteError is the non-2xx failure whose message embeds the status,
the status text and the (re-serialised) body. -/
inductive PostError where
  | protocolError
  | remoteError (status : Nat) (statusText : String) (body : Json)

/-- True exactly on a RemoteError outcome. -/
def isRemoteError (r : Except PostError Json) : Bool :=
  match r with
  | .error (.remoteError _ _ _) => true
  | _ => false

/-- The post method of LangflowClient.  The HTTP exchange is external: the
inputs are the response status, its status text, and the result of
JSON.parse on the body text (none when the body is not valid JSON).  The
source reads the body and parses it first, throwing the invalid-JSON error
before the response.ok test ever runs; response.ok holds exactly for a
status in 200..299. -/
def LangflowClient.post (status : Nat) (statusText : String) (parsed : Option Json) :
    Except PostError Json :=
  match parsed with
  | none => .error .protocolError
  | some j =>
    if 200 ≤ status ∧ status ≤ 299 then .ok j
    else .error (.remoteError status statusText j)

/-- The response-shape traversal of handleSubmit, lines 143 to 156 of App.js,
transcribed branch for branch: botResponse starts as the empty string; when
componentOutput.outputs and its message field are truthy, only the
message.message.text and message.text variants are consulted; otherwise the
message.text and text variants of componentOutput itself are consulted. -/
def extractBot (componentOutput : Json) : Json :=
  if jtruthy (jget componentOutput "outputs")
      && jtruthy (jget (jget componentOutput "outputs") "message") then
    let message := jget (jget componentOutput "outputs") "message"
    if jtruthy (jget message "message")
        && jtruthy (jget (jget message "message") "text") then
      jget (jget message "message") "text"
    else if jtruthy (jget message "text") then jget message "text"
    else .str ""
  else if jtruthy (jget componentOutput "message")
      && jtruthy (jget (jget componentOutput "message") "text") then
    jget (jget componentOutput "message") "text"
  else if jtruthy (jget componentOutput "text") then jget componentOutput "text"
  else .str ""

/-- The final if (botResponse) test of handleSubmit folded onto extractBot:
some extracted value when it is truthy, none when extraction failed. -/
def extractOpt (componentOutput : Json) : Option Json :=
  if jtruthy (extractBot componentOutput) then some (extractBot componentOutput) else none

/-- The extraction as the spec sentence of claim C1 words it: search, in
order, variants (a) outputs.message.message.text, (b) outputs.message.text,
(c) message.text, (d) text, and return the first non-empty (truthy) match.
This definition follows the words of the spec, for comparison with the
transcribed extractBot. -/
def specOrderedExtract (co : Json) : Option Json :=
  [ jget (jget (jget (jget co "outputs") "message") "message") "text"
  , jget (jget (jget co "outputs") "message") "text"
  , jget (jget co "message") "text"
  , jget co "text" ].find? jtruthy

/-- The amended description of the extraction: the four variants are searched
in two groups.  When the nested outputs field carries a truthy message
object, only variants (a) and (b) are consulted; otherwise only variants
(c) and (d) are.  The first truthy match of the consulted group is
returned. -/
def amendedExtract (co : Json) : Option Json :=
  if jtruthy (jget co "outputs") && jtruthy (jget (jget co "outputs") "message") then
    [ jget (jget (jget (jget co "outputs") "message") "message") "text"
    , jget (jget (jget co "outputs") "message") "text" ].find? jtruthy
  else
    [ jget (jget co "message") "text"
    , jget co "text" ].find? jtruthy

/-- A chat message as App.js stores it: the sender tag (user or bot) and the
text payload, which for a bot message is whatever value the extraction
produced. -/
structure ChatMessage where
  type : String
  text : Json

/-- The pieces of component state handleSubmit reads and writes. -/
structure AppState where
  inputValue : String
  messages : List ChatMessage
  isLoading : Bool
  error : String

/-- The state transition performed by one run of handleSubmit.  The outcome
argument models the awaited runFlow result: none when runFlow caught a
request failure and returned undefined, some response otherwise.  The
returned flag records whether an HTTP request was issued.  On a non-blank
input the source clears the error, appends the user message, clears the
input field, and finally resets isLoading, so every non-guarded exit carries
those updates; the branch on a missing first nested output has no else in
the source and silently changes nothing further. -/
def handleSubmit (s : AppState) (outcome : Option Json) : AppState × Bool :=
  if isBlank s.inputValue then (s, false)
  else
    let msgs1 := s.messages ++ [{ type := "user", text := Json.str s.inputValue }]
    let base : AppState := { inputValue := "", messages := msgs1, isLoading := false, error := "" }
    match outcome with
    | none => ({ base with error := "Invalid response from server" }, true)
    | some response =>
      if jtruthy response && jtruthy (jget response "outputs")
          && jtruthy (jindex (jget response "outputs") 0) then
        let flowOutput := jindex (jget response "outputs") 0
        if jtruthy (jget flowOutput "outputs")
            && jtruthy (jindex (jget flowOutput "outputs") 0) then
          let componentOutput := jindex (jget flowOutput "outputs") 0
          match extractOpt componentOutput with
          | some bot => ({ base with messages := msgs1 ++ [{ type := "bot", text := bot }] }, true)
          | none => ({ base with error := "Could not extract bot response" }, true)
        else (base, true)
      else ({ base with error := "Invalid response from server" }, true)

/-- A minimal well-shaped flow response whose first output carries the given
first nested output. -/
def wrapResponse (co : Json) : Json :=
  .obj [("outputs", .arr [.obj [("outputs", .arr [co])]])]

/-- Cells that JavaScript addition keeps integral: numbers and null. -/
def numericCell : Cell → Bool
  | .cnum _ => true
  | .cnull => true
  | _ => false

/-- Cells other than strings; adding one of these never switches the
accumulation into string concatenation. -/
def nonStrCell : Cell → Bool
  | .cstr _ => false
  | _ => true

/-- Numeric value contributed by a numericCell: the number itself, null as
zero. -/
def cellNum : Cell → Int
  | .cnum i => i
  | _ => 0

/-- The count stored for a key in the association-list object, 0 when the
key is absent; this is the read postTypeCounts[k] || 0. -/
def lookupCount (m : List (String × Nat)) (k : String) : Nat :=
  match m.find? (fun p => p.1 == k) with
  | some p => p.2
  | none => 0

/-! ### Concrete inputs used by the counterexamples and witnesses -/

/-- First row of the worked CSV example of the spec (section 8): the columns
are Post_Type, Views and Likes; there is no Shares column at all. -/
def exampleRow1 : Row := [("Post_Type", .cstr "video"), ("Views", .cnum 100), ("Likes", .cnum 10)]

/-- Second row of the worked CSV example. -/
def exampleRow2 : Row := [("Post_Type", .cstr "image"), ("Views", .cnum 50), ("Likes", .cnum 5)]

/-- Third row of the worked CSV example. -/
def exampleRow3 : Row := [("Post_Type", .cstr "video"), ("Views", .cnum 200), ("Likes", .cnum 20)]

/-- The worked CSV example of the spec, parsed: three rows, no Shares
column. -/
def exampleRows : List Row := [exampleRow1, exampleRow2, exampleRow3]

/-- A row whose Post_Type cell is null, as PapaParse produces for an empty
Post_Type field under dynamic typing. -/
def nullRow : Row := [("Post_Type", Cell.cnull), ("Views", Cell.cnum 2)]

/-- A row with no Post_Type binding at all, as PapaParse produces for a data
line shorter than the header; reading Post_Type gives undefined. -/
def undefRow : Row := [("Views", Cell.cnum 1)]

/-- A CSV text with a header row, one valid data row and one fully empty
data row (the blank line before the final newline). -/
def exampleCsv : String := "Post_Type,Views,Likes\nvideo,100,10\n\n"

/-- A component output on which the grouped search of the source diverges
from the flat four-variant search of the spec: the nested outputs.message
object is present but empty, and a non-empty top-level text field exists. -/
def ceJson : Json :=
  .obj [("outputs", .obj [("message", .obj [])]), ("text", .str "hello")]

/-! ### Supporting lemmas -/

theorem foldl_dedup_mem {α : Type} [DecidableEq α] :
    ∀ (l acc : List α) (x : α),
      x ∈ l.foldl (fun acc a => if a ∈ acc then acc else acc ++ [a]) acc →
        x ∈ acc ∨ x ∈ l := by
  intro l
  induction l with
  | nil => intro acc x h; exact Or.inl h
  | cons a l ih =>
    intro acc x h
    rcases ih _ x h with h2 | h2
    · dsimp only at h2
      by_cases ha : a ∈ acc
      · rw [if_pos ha] at h2; exact Or.inl h2
      · rw [if_neg ha] at h2
        rcases List.mem_append.mp h2 with h3 | h3
        · exact Or.inl h3
        · exact Or.inr (List.mem_cons.mpr (Or.inl (List.mem_singleton.mp h3)))
    · exact Or.inr (List.mem_cons_of_mem _ h2)

theorem jsSetDedup_subset {α : Type} [DecidableEq α] (l : List α) (x : α)
    (h : x ∈ jsSetDedup l) : x ∈ l := by
  rcases foldl_dedup_mem l [] x h with h2 | h2
  · cases h2
  · exact h2

theorem jtruthy_of_jget (x : Json) (k : String) (h : jtruthy (jget x k) = true) :
    jtruthy x = true := by
  cases x <;> simp [jget, jtruthy] at h ⊢

theorem foldl_sum_numeric (k : String) :
    ∀ (g : List Row) (a : Int), (∀ r ∈ g, numericCell (getF r k) = true) →
      g.foldl (fun acc r => jsPlus acc (getF r k)) (.int a)
        = .int (a + (g.map (fun r => cellNum (getF r k))).sum) := by
  intro g
  induction g with
  | nil => intro a _; simp
  | cons r g ih =>
    intro a h
    have hr := h r (List.mem_cons_self r g)
    have hg : ∀ x ∈ g, numericCell (getF x k) = true :=
      fun x hx => h x (List.mem_cons_of_mem _ hx)
    cases hc : getF r k with
    | cnum i =>
      rw [List.foldl_cons]
      rw [hc, show jsPlus (JsAcc.int a) (Cell.cnum i) = JsAcc.int (a + i) from rfl,
        ih (a + i) hg, List.map_cons, List.sum_cons, hc]
      congr 1
      simp only [cellNum]
      ring
    | cnull =>
      rw [List.foldl_cons]
      rw [hc, show jsPlus (JsAcc.int a) Cell.cnull = JsAcc.int a from rfl,
        ih a hg, List.map_cons, List.sum_cons, hc]
      congr 1
      simp only [cellNum]
      ring
    | cundefined => simp [numericCell, hc] at hr
    | cbool b => simp [numericCell, hc] at hr
    | cstr s => simp [numericCell, hc] at hr

theorem foldl_nan (k : String) :
    ∀ (g : List Row), (∀ r ∈ g, nonStrCell (getF r k) = true) →
      g.foldl (fun acc r => jsPlus acc (getF r k)) .nan = .nan := by
  intro g
  induction g with
  | nil => intro _; simp
  | cons r g ih =>
    intro h
    have hr := h r (List.mem_cons_self r g)
    have hg : ∀ x ∈ g, nonStrCell (getF x k) = true :=
      fun x hx => h x (List.mem_cons_of_mem _ hx)
    cases hc : getF r k with
    | cnum i => simp only [List.foldl_cons, hc, jsPlus]; exact ih hg
    | cnull => simp only [List.foldl_cons, hc, jsPlus]; exact ih hg
    | cundefined => simp only [List.foldl_cons, hc, jsPlus]; exact ih hg
    | cbool b => simp only [List.foldl_cons, hc, jsPlus]; exact ih hg
    | cstr s => simp [nonStrCell, hc] at hr

theorem foldl_sum_undefined (k : String) :
    ∀ (g : List Row) (a : Int), (∀ r ∈ g, nonStrCell (getF r k) = true) →
      (∃ r ∈ g, getF r k = .cundefined) →
      g.foldl (fun acc r => jsPlus acc (getF r k)) (.int a) = .nan := by
  intro g
  induction g with
  | nil => intro a _ hex; rcases hex with ⟨r, hr, _⟩; cases hr
  | cons r g ih =>
    intro a h hex
    have hg : ∀ x ∈ g, nonStrCell (getF x k) = true :=
      fun x hx => h x (List.mem_cons_of_mem _ hx)
    cases hc : getF r k with
    | cundefined =>
      simp only [List.foldl_cons, hc, jsPlus]
      exact foldl_nan k g hg
    | cnum i =>
      simp only [List.foldl_cons, hc, jsPlus]
      refine ih (a + i) hg ?_
      rcases hex with ⟨r0, hr0, he0⟩
      rcases List.mem_cons.mp hr0 with h0 | h0
      · rw [h0] at he0; rw [he0] at hc; cases hc
      · exact ⟨r0, h0, he0⟩
    | cnull =>
      simp only [List.foldl_cons, hc, jsPlus]
      refine ih a hg ?_
      rcases hex with ⟨r0, hr0, he0⟩
      rcases List.mem_cons.mp hr0 with h0 | h0
      · rw [h0] at he0; rw [he0] at hc; cases hc
      · exact ⟨r0, h0, he0⟩
    | cbool b =>
      simp only [List.foldl_cons, hc, jsPlus]
      refine ih (a + if b then 1 else 0) hg ?_
      rcases hex with ⟨r0, hr0, he0⟩
      rcases List.mem_cons.mp hr0 with h0 | h0
      · rw [h0] at he0; rw [he0] at hc; cases hc
      · exact ⟨r0, h0, he0⟩
    | cstr s =>
      have hr := h r (List.mem_cons_self r g)
      simp [nonStrCell, hc] at hr

theorem jsMathRound_eq_floor (s : Int) (n : Nat) (hn : 0 < n) :
    jsMathRound s n = ⌊(s : ℚ) / (n : ℚ) + 1 / 2⌋ := by
  have hnz : (n : ℚ) ≠ 0 := Nat.cast_ne_zero.mpr hn.ne'
  have hq : (s : ℚ) / (n : ℚ) + 1 / 2 = ((2 * s + (n : Int) : Int) : ℚ) / ((2 * n : ℕ) : ℚ) := by
    push_cast
    field_simp
    ring
  rw [hq, Rat.floor_intCast_div_natCast]
  unfold jsMathRound
  push_cast
  ring_nf

theorem sum_bump (m : List (String × Nat)) (k : String) :
    ((bump m k).map Prod.snd).sum = ((m.map Prod.snd)).sum + 1 := by
  induction m with
  | nil => simp [bump]
  | cons q m ih =>
    by_cases h : q.1 = k
    · simp [bump, h]
      omega
    · simp [bump, h, ih]
      omega

theorem lookup_bump (m : List (String × Nat)) (k k2 : String) :
    lookupCount (bump m k) k2 = lookupCount m k2 + (if k2 = k then 1 else 0) := by
  induction m with
  | nil =>
    by_cases h : k2 = k
    · subst h
      simp [bump, lookupCount, List.find?]
    · have hb : (k == k2) = false := by
        simp only [beq_eq_false_iff_ne, ne_eq]
        exact fun he => h he.symm
      simp [bump, lookupCount, List.find?, hb, h]
  | cons q m ih =>
    by_cases hq : q.1 = k
    · rw [show bump (q :: m) k = (q.1, q.2 + 1) :: m from by simp [bump, hq]]
      by_cases h2 : q.1 = k2
      · simp [lookupCount, List.find?, h2]
        rw [hq] at h2; rw [← h2]
        simp
      · have hb : (q.1 == k2) = false := by simp [h2]
        simp only [lookupCount, List.find?, hb]
        have : lookupCount ((q.1, q.2) :: m) k2 = lookupCount m k2 := by
          simp [lookupCount, List.find?, hb]
        have hne : ¬(k2 = k) := fun he => h2 (by rw [hq, he])
        simp [lookupCount, hne]
    · rw [show bump (q :: m) k = q :: bump m k from by
        cases q with
        | mk a b => simp [bump, hq]]
      by_cases h2 : q.1 = k2
      · have hb : (q.1 == k2) = true := by simp [h2]
        simp only [lookupCount, List.find?, hb]
        have hne : ¬(k2 = k) := fun he => hq (by rw [← he, h2])
        simp [hne]
      · have hb : (q.1 == k2) = false := by simp [h2]
        simp only [lookupCount, List.find?, hb] at ih ⊢
        exact ih

theorem keys_bump (m : List (String × Nat)) (k : String) :
    (bump m k).map Prod.fst =
      if k ∈ m.map Prod.fst then m.map Prod.fst else m.map Prod.fst ++ [k] := by
  induction m with
  | nil => simp [bump]
  | cons q m ih =>
    by_cases h : q.1 = k
    · simp [bump, h]
    · have hne : ¬(k = q.1) := fun he => h he.symm
      simp [bump, h, ih, hne]
      by_cases hm : k ∈ m.map Prod.fst <;> simp [hm, hne]

theorem nodup_keys_bump (m : List (String × Nat)) (k : String)
    (h : (m.map Prod.fst).Nodup) : ((bump m k).map Prod.fst).Nodup := by
  rw [keys_bump]
  by_cases hm : k ∈ m.map Prod.fst
  · simpa [hm]
  · simpa [hm, List.nodup_append] using h

theorem pos_bump (m : List (String × Nat)) (k : String)
    (h : ∀ p ∈ m, 0 < p.2) : ∀ p ∈ bump m k, 0 < p.2 := by
  induction m with
  | nil =>
    intro p hp
    simp [bump] at hp
    simp [hp]
  | cons q m ih =>
    intro p hp
    by_cases hq : q.1 = k
    · rw [show bump (q :: m) k = (q.1, q.2 + 1) :: m from by simp [bump, hq]] at hp
      rcases List.mem_cons.mp hp with h2 | h2
      · rw [h2]; simp
      · exact h p (List.mem_cons_of_mem _ h2)
    · rw [show bump (q :: m) k = q :: bump m k from by
        cases q with
        | mk a b => simp [bump, hq]] at hp
      rcases List.mem_cons.mp hp with h2 | h2
      · rw [h2]; exact h q (List.mem_cons_self q m)
      · exact ih (fun p hp => h p (List.mem_cons_of_mem _ hp)) p h2

theorem mem_eq_lookupCount (m : List (String × Nat)) (p : String × Nat)
    (hnd : (m.map Prod.fst).Nodup) (hp : p ∈ m) : p.2 = lookupCount m p.1 := by
  induction m with
  | nil => cases hp
  | cons q m ih =>
    rcases List.mem_cons.mp hp with h | h
    · rw [h]
      simp [lookupCount, List.find?]
    · have hnd2 : (m.map Prod.fst).Nodup := (List.nodup_cons.mp (by simpa using hnd)).2
      have hq : q.1 ∉ m.map Prod.fst := (List.nodup_cons.mp (by simpa using hnd)).1
      have hne : q.1 ≠ p.1 := fun he => hq (he ▸ List.mem_map_of_mem Prod.fst h)
      have hb : (q.1 == p.1) = false := by simp [hne]
      simp only [lookupCount, List.find?, hb]
      exact ih hnd2 h

theorem ptc_foldl_lookup (k : String) :
    ∀ (rows : List Row) (m : List (String × Nat)),
      lookupCount (rows.foldl (fun m r => bump m (keyOf r)) m) k
        = lookupCount m k + (rows.filter (fun r => keyOf r == k)).length := by
  intro rows
  induction rows with
  | nil => intro m; simp
  | cons r rows ih =>
    intro m
    rw [List.foldl_cons, ih (bump m (keyOf r)), lookup_bump]
    by_cases h : keyOf r = k
    · have hif : (if k = keyOf r then 1 else 0) = 1 := by simp [h]
      have hb : (keyOf r == k) = true := by simp [h]
      rw [hif]
      simp [List.filter_cons, hb]
      omega
    · have hne : ¬(k = keyOf r) := fun he => h he.symm
      have hif : (if k = keyOf r then 1 else 0) = 0 := by simp [hne]
      have hb : (keyOf r == k) = false := by
        simp only [beq_eq_false_iff_ne, ne_eq]
        exact h
      rw [hif]
      simp only [List.filter_cons, hb, Bool.false_eq_true, if_false]
      omega

theorem ptc_foldl_sum :
    ∀ (rows : List Row) (m : List (String × Nat)),
      ((rows.foldl (fun m r => bump m (keyOf r)) m).map Prod.snd).sum
        = (m.map Prod.snd).sum + rows.length := by
  intro rows
  induction rows with
  | nil => intro m; simp
  | cons r rows ih =>
    intro m
    rw [List.foldl_cons, ih (bump m (keyOf r)), sum_bump]
    simp
    omega

theorem ptc_foldl_nodup :
    ∀ (rows : List Row) (m : List (String × Nat)),
      (m.map Prod.fst).Nodup →
      ((rows.foldl (fun m r => bump m (keyOf r)) m).map Prod.fst).Nodup := by
  intro rows
  induction rows with
  | nil => intro m h; simpa
  | cons r rows ih =>
    intro m h
    exact ih (bump m (keyOf r)) (nodup_keys_bump m (keyOf r) h)

theorem ptc_foldl_pos :
    ∀ (rows : List Row) (m : List (String × Nat)),
      (∀ p ∈ m, 0 < p.2) →
      ∀ p ∈ rows.foldl (fun m r => bump m (keyOf r)) m, 0 < p.2 := by
  intro rows
  induction rows with
  | nil => intro m h; exact h
  | cons r rows ih =>
    intro m h
    exact ih (bump m (keyOf r)) (pos_bump m (keyOf r) h)

theorem jsRoundDiv_int (x : Int) (n : Nat) (h : n ≠ 0) :
    jsRoundDiv (.int x) n = .int (jsMathRound x n) := by
  simp [jsRoundDiv, jsToNumber, h]

theorem jsRoundDiv_nan (n : Nat) : jsRoundDiv .nan n = .nan := rfl

theorem map_value_mk (m : List (String × Nat)) :
    (m.map (fun p => ({ name := p.1, value := p.2 } : PTEntry))).map PTEntry.value
      = m.map Prod.snd := by
  induction m with
  | nil => rfl
  | cons q m ih => simp [ih]

theorem map_name_mk (m : List (String × Nat)) :
    (m.map (fun p => ({ name := p.1, value := p.2 } : PTEntry))).map PTEntry.name
      = m.map Prod.fst := by
  induction m with
  | nil => rfl
  | cons q m ih => simp [ih]

/-! ### Claim theorems -/

/-- Claim C2, counterexample: an HTTP 500 response whose body is not valid
JSON does not fail with a RemoteError, contrary to the claim that a non-2xx
status with any body yields a RemoteError carrying the status; the parse
failure wins because the source parses the body before testing
response.ok. -/
theorem c2_counterexample :
    LangflowClient.post 500 "Internal Server Error" none = .error .protocolError ∧
    isRemoteError (LangflowClient.post 500 "Internal Server Error" none) = false :=
  ⟨rfl, rfl⟩

/-- Claim C2, amended: for every non-2xx status whose body parses as JSON,
post fails with a RemoteError carrying the status, the status text and the
parsed body; an unparseable body instead fails with the ProtocolError of
claim C3, since parsing precedes the status check. -/
theorem c2_remote_error_amended (status : Nat) (statusText : String) (body : Json)
    (h : ¬(200 ≤ status ∧ status ≤ 299)) :
    LangflowClient.post status statusText (some body)
      = .error (.remoteError status statusText body) := by
  have hstep : LangflowClient.post status statusText (some body)
      = if 200 ≤ status ∧ status ≤ 299 then Except.ok body
        else Except.error (PostError.remoteError status statusText body) := rfl
  rw [hstep, if_neg h]

/-- Claim C2, witness for the amended theorem at status 500. -/
theorem c2_witness :
    LangflowClient.post 500 "Internal Server Error" (some (Json.str "overloaded"))
      = .error (.remoteError 500 "Internal Server Error" (Json.str "overloaded")) :=
  c2_remote_error_amended 500 "Internal Server Error" (Json.str "overloaded") (by decide)

/-- Claim C3: whenever the body is not valid JSON, post fails with
ProtocolError, whatever the status is, and that outcome is never a
RemoteError: the two failure kinds are distinct constructors and the parse
failure is raised before the HTTP status is ever examined. -/
theorem c3_protocol_error (status : Nat) (statusText : String) :
    LangflowClient.post status statusText none = .error .protocolError ∧
    isRemoteError (LangflowClient.post status statusText none) = false :=
  ⟨rfl, rfl⟩

/-- Claim C5: the per-category counts of getPostTypeStats sum to the number
of rows, which is exactly the totalPosts field of getStats. -/
theorem c5_counts_sum (rows : List Row) :
    ((getPostTypeStats rows).map PTEntry.value).sum = rows.length ∧
    (getStats rows).totalPosts = rows.length := by
  constructor
  · unfold getPostTypeStats
    rw [map_value_mk]
    have h := ptc_foldl_sum rows []
    unfold postTypeCounts
    simpa using h
  · rfl

/-- Claim C8: getEngagementData returns exactly one point per input row, in
the original row order (the i-th point is built from the i-th row), for any
date formatter; no re-sorting by date happens. -/
theorem c8_time_series (fmt : Cell → String) (rows : List Row) :
    (getEngagementData fmt rows).length = rows.length ∧
    ∀ i : Nat, (getEngagementData fmt rows)[i]? =
      (rows[i]?).map (fun r =>
        { date := fmt (getF r "Date"), likes := getF r "Likes", shares := getF r "Shares",
          comments := getF r "Comments", views := getF r "Views" }) := by
  constructor
  · simp [getEngagementData]
  · intro i
    simp [getEngagementData, List.getElem?_map]

/-- Claim C9: when the submitted input is empty or whitespace-only (that is,
inputValue.trim() is falsy), handleSubmit returns at once: the state is
unchanged (no message appended, error and loading untouched) and no HTTP
request is issued. -/
theorem c9_blank_noop (s : AppState) (outcome : Option Json)
    (h : isBlank s.inputValue = true) : handleSubmit s outcome = (s, false) := by
  unfold handleSubmit
  rw [h]
  rfl

/-- Claim C9, witness: a whitespace-only input with a pending error and
loading flag set is left exactly as it was. -/
theorem c9_witness :
    handleSubmit { inputValue := "   ", messages := [], isLoading := true, error := "boom" } none
      = ({ inputValue := "   ", messages := [], isLoading := true, error := "boom" }, false) :=
  c9_blank_noop _ none (by decide)

/-- Claim C6: every entry emitted by getAverageEngagement names a Post_Type
value present in the input rows, and the group it averages over is
non-empty, so the division is never over a zero-row group. -/
theorem c6_avg_safe (rows : List Row) (e : AvgEntry)
    (he : e ∈ getAverageEngagement rows) :
    (∃ r ∈ rows, getF r "Post_Type" = e.name) ∧ 0 < (postsOf rows e.name).length := by
  unfold getAverageEngagement at he
  rcases List.mem_map.mp he with ⟨t, ht, hmk⟩
  have hname : e.name = t := by rw [← hmk]
  have ht2 : t ∈ rows.map (fun r => getF r "Post_Type") := jsSetDedup_subset _ t ht
  rcases List.mem_map.mp ht2 with ⟨r, hr, hgr⟩
  have hrg : r ∈ postsOf rows t := by
    unfold postsOf
    rw [List.mem_filter]
    exact ⟨hr, by simp [hgr]⟩
  constructor
  · exact ⟨r, hr, by rw [hname, hgr]⟩
  · rw [hname]
    exact List.length_pos.mpr (List.ne_nil_of_mem hrg)

/-- Claim C6, witness at the worked example: the video entry names a
category present in the rows and its group has positive size. -/
theorem c6_witness :
    (∃ r ∈ exampleRows, getF r "Post_Type" = Cell.cstr "video") ∧
    0 < (postsOf exampleRows (Cell.cstr "video")).length :=
  c6_avg_safe exampleRows
    { name := Cell.cstr "video", likes := .int 15, shares := .nan } (by decide)

/-- Claim C10, counterexample: one row with a null Post_Type and one row
with no Post_Type at all are not grouped under one single entry; the object
key coercion sends null to the string null and undefined to the string
undefined, producing two distinct entries of count 1. -/
theorem c10_counterexample :
    getPostTypeStats [nullRow, undefRow] = [⟨"null", 1⟩, ⟨"undefined", 1⟩] ∧
    getF nullRow "Post_Type" = Cell.cnull ∧ getF undefRow "Post_Type" = Cell.cundefined :=
  ⟨rfl, rfl, rfl⟩

/-- Claim C10, amended: getPostTypeStats counts every input row under the
string coercion of its Post_Type value (missing gives the key undefined,
null gives the separate key null), each emitted entry counts exactly the
rows whose coerced key equals its name, entries are pairwise distinct and
non-empty, and the counts sum to the number of rows, so the entries
partition the row set into disjoint non-empty groups. -/
theorem c10_partition (rows : List Row) :
    (∀ e ∈ getPostTypeStats rows,
        e.value = (rows.filter (fun r => keyOf r == e.name)).length ∧ 0 < e.value) ∧
    ((getPostTypeStats rows).map PTEntry.name).Nodup ∧
    ((getPostTypeStats rows).map PTEntry.value).sum = rows.length ∧
    cellToString Cell.cundefined = "undefined" ∧ cellToString Cell.cnull = "null" := by
  refine ⟨?_, ?_, ?_, rfl, rfl⟩
  · intro e he
    unfold getPostTypeStats at he
    rcases List.mem_map.mp he with ⟨p, hp, hmk⟩
    have hval : e.value = p.2 := by rw [← hmk]
    have hnm : e.name = p.1 := by rw [← hmk]
    have hnd : ((postTypeCounts rows).map Prod.fst).Nodup := by
      unfold postTypeCounts
      exact ptc_foldl_nodup rows [] (by simp)
    constructor
    · rw [hval, hnm, mem_eq_lookupCount _ p hnd hp]
      have h := ptc_foldl_lookup p.1 rows []
      rw [show lookupCount [] p.1 = 0 from rfl, Nat.zero_add] at h
      unfold postTypeCounts
      exact h
    · rw [hval]
      exact ptc_foldl_pos rows [] (by simp) p hp
  · unfold getPostTypeStats
    rw [map_name_mk]
    unfold postTypeCounts
    exact ptc_foldl_nodup rows [] (by simp)
  · unfold getPostTypeStats
    rw [map_value_mk]
    have h := ptc_foldl_sum rows []
    unfold postTypeCounts
    simpa using h

/-- Claim C10, witness: in the two-row null and missing example the null
entry counts exactly the rows whose coerced key is the string null, and is
non-empty. -/
theorem c10_witness :
    (PTEntry.value ⟨"null", 1⟩
        = ((([nullRow, undefRow] : List Row).filter
            (fun r => keyOf r == PTEntry.name ⟨"null", 1⟩)).length)) ∧
    0 < PTEntry.value ⟨"null", 1⟩ :=
  (c10_partition [nullRow, undefRow]).1 ⟨"null", 1⟩ (by decide)

/-- Claim C7: loadData fails with the loading-error state when the fetch
fails or the response is non-ok; with the parsing-error state when PapaParse
reports errors; with the no-valid-data state when no row survives; and on a
CSV with a header, one valid data row and one fully empty data row it
returns exactly one row (the empty line is skipped by skipEmptyLines). -/
theorem c7_load_contract :
    loadData none = .error .loadError ∧
    (∀ body, loadData (some (false, body)) = .error .loadError) ∧
    (∀ body, (papaParse body).errors ≠ [] →
      loadData (some (true, body)) = .error .parseError) ∧
    (∀ body, (papaParse body).errors = [] →
      (papaParse body).data.filter (fun r => 0 < r.length) = [] →
      loadData (some (true, body)) = .error .emptyDataError) ∧
    loadData (some (true, exampleCsv))
      = .ok [[("Post_Type", Cell.cstr "video"), ("Views", Cell.cnum 100),
              ("Likes", Cell.cnum 10)]] := by
  refine ⟨rfl, fun body => rfl, fun body h => ?_, fun body h1 h2 => ?_, rfl⟩
  · have hl : 0 < (papaParse body).errors.length := List.length_pos.mpr h
    unfold loadData
    simp [hl]
  · have hl : ¬ 0 < (papaParse body).errors.length := by
      rw [h1]
      simp
    unfold loadData
    simp [hl, h2]

/-- Claim C7, witness: a failed fetch status, a CSV with a field-count
mismatch, and a CSV with no data rows hit the three failure states. -/
theorem c7_witness :
    loadData (some (false, "x")) = .error .loadError ∧
    loadData (some (true, "A,B\n1\n")) = .error .parseError ∧
    loadData (some (true, "A,B\n\n")) = .error .emptyDataError :=
  ⟨c7_load_contract.2.1 "x",
   c7_load_contract.2.2.1 "A,B\n1\n" (by decide),
   c7_load_contract.2.2.2.1 "A,B\n\n" rfl rfl⟩

/-- Claim C4, counterexample: on the worked example CSV, whose rows have no
Shares field at all, the emitted average shares value is NaN, not 0: the
reduce has no default, so adding the undefined Shares cell poisons the sum.
The likes averages are 15 and 5 as the spec expects. -/
theorem c4_counterexample :
    getAverageEngagement exampleRows
      = [{ name := .cstr "video", likes := .int 15, shares := .nan },
         { name := .cstr "image", likes := .int 5, shares := .nan }] ∧
    JsAcc.nan ≠ JsAcc.int 0 :=
  ⟨rfl, by decide⟩

/-- Claim C4, amended: for every emitted category entry, when every row of
its group carries a numeric (or null, read as zero) value for a field, the
emitted average is Math.round of the arithmetic mean of those values, where
Math.round of s over n is the floor of s divided by n plus one half; but
when any row of the group lacks the field (undefined, and no string cell
interferes) the emitted average is NaN — in particular a CSV with no Shares
column yields avgShares NaN, not 0 (null cells still count as zero). -/
theorem c4_average_engagement (rows : List Row) (e : AvgEntry)
    (he : e ∈ getAverageEngagement rows) :
    ((∀ r ∈ postsOf rows e.name, numericCell (getF r "Likes") = true) →
      e.likes = .int (jsMathRound
        ((postsOf rows e.name).map (fun r => cellNum (getF r "Likes"))).sum
        (postsOf rows e.name).length)) ∧
    ((∀ r ∈ postsOf rows e.name, nonStrCell (getF r "Likes") = true) →
      (∃ r ∈ postsOf rows e.name, getF r "Likes" = Cell.cundefined) →
      e.likes = .nan) ∧
    ((∀ r ∈ postsOf rows e.name, numericCell (getF r "Shares") = true) →
      e.shares = .int (jsMathRound
        ((postsOf rows e.name).map (fun r => cellNum (getF r "Shares"))).sum
        (postsOf rows e.name).length)) ∧
    ((∀ r ∈ postsOf rows e.name, nonStrCell (getF r "Shares") = true) →
      (∃ r ∈ postsOf rows e.name, getF r "Shares" = Cell.cundefined) →
      e.shares = .nan) ∧
    (∀ (s : Int) (n : Nat), 0 < n → jsMathRound s n = ⌊(s : ℚ) / (n : ℚ) + 1 / 2⌋) := by
  unfold getAverageEngagement at he
  rcases List.mem_map.mp he with ⟨t, ht, hmk⟩
  have hname : e.name = t := by rw [← hmk]
  have ht2 : t ∈ rows.map (fun r => getF r "Post_Type") := jsSetDedup_subset _ t ht
  rcases List.mem_map.mp ht2 with ⟨r0, hr0, hgr0⟩
  have hrg : r0 ∈ postsOf rows t := by
    unfold postsOf
    rw [List.mem_filter]
    exact ⟨hr0, by simp [hgr0]⟩
  have hne : (postsOf rows t).length ≠ 0 :=
    (List.length_pos.mpr (List.ne_nil_of_mem hrg)).ne'
  have hlik : e.likes = jsRoundDiv
      ((postsOf rows t).foldl (fun a p => jsPlus a (getF p "Likes")) (.int 0))
      (postsOf rows t).length := by
    rw [← hmk]
  have hsha : e.shares = jsRoundDiv
      ((postsOf rows t).foldl (fun a p => jsPlus a (getF p "Shares")) (.int 0))
      (postsOf rows t).length := by
    rw [← hmk]
  refine ⟨?_, ?_, ?_, ?_, fun s n hn => jsMathRound_eq_floor s n hn⟩
  · rw [hname]
    intro hnum
    rw [hlik, foldl_sum_numeric "Likes" (postsOf rows t) 0 hnum,
      jsRoundDiv_int _ _ hne, zero_add]
  · rw [hname]
    intro hnonstr hex
    rw [hlik, foldl_sum_undefined "Likes" (postsOf rows t) 0 hnonstr hex]
    exact jsRoundDiv_nan _
  · rw [hname]
    intro hnum
    rw [hsha, foldl_sum_numeric "Shares" (postsOf rows t) 0 hnum,
      jsRoundDiv_int _ _ hne, zero_add]
  · rw [hname]
    intro hnonstr hex
    rw [hsha, foldl_sum_undefined "Shares" (postsOf rows t) 0 hnonstr hex]
    exact jsRoundDiv_nan _

/-- Claim C4, witness at the worked example: the video entry carries the
rounded likes average and a NaN shares average, and Math.round of 30 over 2
is the floor characterisation at those arguments. -/
theorem c4_witness :
    (AvgEntry.likes { name := Cell.cstr "video", likes := .int 15, shares := .nan }
        = .int (jsMathRound
          ((postsOf exampleRows (Cell.cstr "video")).map
            (fun r => cellNum (getF r "Likes"))).sum
          (postsOf exampleRows (Cell.cstr "video")).length)) ∧
    (AvgEntry.shares { name := Cell.cstr "video", likes := .int 15, shares := .nan }
        = .nan) ∧
    jsMathRound 30 2 = ⌊((30 : Int) : ℚ) / ((2 : Nat) : ℚ) + 1 / 2⌋ := by
  have h := c4_average_engagement exampleRows
    { name := Cell.cstr "video", likes := .int 15, shares := .nan } (by decide)
  exact ⟨h.1 (by decide), h.2.2.2.1 (by decide) (by decide), h.2.2.2.2 30 2 (by decide)⟩

/-- Claim C1, counterexample: on a component output whose nested
outputs.message object is present but carries no text, while a non-empty
top-level text field exists, the flat in-order four-variant search of the
spec finds the text hello, but the source extraction finds nothing (variant
d is never consulted once outputs.message is truthy). -/
theorem c1_counterexample :
    specOrderedExtract ceJson = some (.str "hello") ∧
    extractOpt ceJson = none ∧
    jtruthy (Json.str "hello") = true :=
  ⟨rfl, rfl, rfl⟩

/-- Claim C1, amended: the extraction searches the four variants in two
groups — when the nested outputs.message object is truthy only variants (a)
and (b) are consulted, otherwise only (c) and (d) — returning the first
truthy match of the consulted group; and whenever the first nested output
exists (truthy) but extraction fails, handleSubmit surfaces the
could-not-extract error state and appends no bot message. -/
theorem c1_extraction_grouped (co : Json) :
    extractOpt co = amendedExtract co ∧
    ∀ s : AppState, isBlank s.inputValue = false → jtruthy co = true →
      extractOpt co = none →
      handleSubmit s (some (wrapResponse co)) =
        ({ inputValue := "", messages := s.messages
              ++ [{ type := "user", text := Json.str s.inputValue }],
           isLoading := false, error := "Could not extract bot response" }, true) := by
  constructor
  · by_cases hA : (jtruthy (jget co "outputs")
        && jtruthy (jget (jget co "outputs") "message")) = true
    · by_cases h1 : jtruthy
          (jget (jget (jget (jget co "outputs") "message") "message") "text") = true
      · have hcond : (jtruthy (jget (jget (jget co "outputs") "message") "message")
            && jtruthy (jget (jget (jget (jget co "outputs") "message") "message") "text"))
              = true := by
          rw [jtruthy_of_jget _ _ h1, h1]
          rfl
        have hx : extractBot co
            = jget (jget (jget (jget co "outputs") "message") "message") "text" := by
          unfold extractBot
          rw [if_pos hA, if_pos hcond]
        unfold extractOpt amendedExtract
        rw [hx, if_pos h1, if_pos hA, List.find?_cons_of_pos _ h1]
      · have h1f : jtruthy
            (jget (jget (jget (jget co "outputs") "message") "message") "text") = false := by
          simpa using h1
        have hcond : (jtruthy (jget (jget (jget co "outputs") "message") "message")
            && jtruthy (jget (jget (jget (jget co "outputs") "message") "message") "text"))
              = false := by
          rw [h1f]
          exact Bool.and_false _
        by_cases h2 : jtruthy (jget (jget (jget co "outputs") "message") "text") = true
        · have hx : extractBot co = jget (jget (jget co "outputs") "message") "text" := by
            unfold extractBot
            rw [if_pos hA, if_neg (by simp [hcond]), if_pos h2]
          unfold extractOpt amendedExtract
          rw [hx, if_pos h2, if_pos hA, List.find?_cons_of_neg _ (by simp [h1f]),
            List.find?_cons_of_pos _ h2]
        · have h2f : jtruthy (jget (jget (jget co "outputs") "message") "text") = false := by
            simpa using h2
          have hx : extractBot co = .str "" := by
            unfold extractBot
            rw [if_pos hA, if_neg (by simp [hcond]), if_neg (by simp [h2f])]
          unfold extractOpt amendedExtract
          rw [hx, if_neg (by decide), if_pos hA, List.find?_cons_of_neg _ (by simp [h1f]),
            List.find?_cons_of_neg _ (by simp [h2f]), List.find?_nil]
    · have hAf : (jtruthy (jget co "outputs")
          && jtruthy (jget (jget co "outputs") "message")) = false := by
        simpa using hA
      by_cases h3 : jtruthy (jget (jget co "message") "text") = true
      · have hcond : (jtruthy (jget co "message")
            && jtruthy (jget (jget co "message") "text")) = true := by
          rw [jtruthy_of_jget _ _ h3, h3]
          rfl
        have hx : extractBot co = jget (jget co "message") "text" := by
          unfold extractBot
          rw [if_neg (by simp [hAf]), if_pos hcond]
        unfold extractOpt amendedExtract
        rw [hx, if_pos h3, if_neg (by simp [hAf]), List.find?_cons_of_pos _ h3]
      · have h3f : jtruthy (jget (jget co "message") "text") = false := by
          simpa using h3
        have hcond : (jtruthy (jget co "message")
            && jtruthy (jget (jget co "message") "text")) = false := by
          rw [h3f]
          exact Bool.and_false _
        by_cases h4 : jtruthy (jget co "text") = true
        · have hx : extractBot co = jget co "text" := by
            unfold extractBot
            rw [if_neg (by simp [hAf]), if_neg (by simp [hcond]), if_pos h4]
          unfold extractOpt amendedExtract
          rw [hx, if_pos h4, if_neg (by simp [hAf]), List.find?_cons_of_neg _ (by simp [h3f]),
            List.find?_cons_of_pos _ h4]
        · have h4f : jtruthy (jget co "text") = false := by
            simpa using h4
          have hx : extractBot co = .str "" := by
            unfold extractBot
            rw [if_neg (by simp [hAf]), if_neg (by simp [hcond]), if_neg (by simp [h4f])]
          unfold extractOpt amendedExtract
          rw [hx, if_neg (by decide), if_neg (by simp [hAf]),
            List.find?_cons_of_neg _ (by simp [h3f]), List.find?_cons_of_neg _ (by simp [h4f]),
            List.find?_nil]
  · intro s hblank hco hnone
    unfold handleSubmit
    rw [hblank]
    simp only [Bool.false_eq_true, if_false]
    rw [show jindex (jget (jindex (jget (wrapResponse co) "outputs") 0) "outputs") 0 = co
      from rfl] at *
    simp [wrapResponse, jget, jindex, jtruthy, hnone]
    exact hco

/-- Claim C1, witness: submitting the input hi against the counterexample
response ends in the could-not-extract error state with only the user
message appended and no bot message. -/
theorem c1_witness :
    handleSubmit { inputValue := "hi", messages := [], isLoading := false, error := "" }
        (some (wrapResponse ceJson))
      = ({ inputValue := "", messages := [{ type := "user", text := Json.str "hi" }],
           isLoading := false, error := "Could not extract bot response" }, true) :=
  (c1_extraction_grouped ceJson).2
    { inputValue := "hi", messages := [], isLoading := false, error := "" }
    (by decide) rfl rfl

end SMA
